import Mathlib

/-!
Verification of the WeatherMaker forecast pipeline.

Shallow embedding of `weather_maker.py` and `database_init.py`:
the condition normalizer (`WeatherMaker.parse_weather_condition`),
the field extractors (`parse_temperature`, `parse_wind`), the range
collector (`WeatherMaker.save_forecast`), and the store operations
(`DatabaseUpdater.store_forecast`, `DatabaseUpdater.get_forecast`).

Calendar dates are modelled as integers (day numbers); the order and
successor structure is all the source uses.  Strings are Lean `String`s;
Python substring containment `k in s` is modelled by `strOccurs`.
-/

/-- Python `pat in text` substring containment, on characters. -/
def strOccurs (pat text : String) : Bool :=
  (List.range (text.data.length + 1)).any
    (fun i => ((text.data.drop i).take pat.data.length) == pat.data)

/-- `WEATHER_TYPES` tuple from `weather_maker.py`. -/
def WEATHER_TYPES : List String := ["Cloudy", "Rainy", "Snowy", "Sunny"]

/-- `WEATHER_CONDITION_DICT` from `weather_maker.py`: an insertion-ordered
dict from keyword tuples to categories, modelled as an ordered association
list. -/
def WEATHER_CONDITION_DICT : List (List String × String) :=
  [(["Cloud", "cloud", "overcast", "Overcast", "foggy", "Foggy"], "Cloudy"),
   (["Rain", "rain", "Drizzle", "drizzle"], "Rainy"),
   (["Snow", "snow"], "Snowy"),
   (["Sun", "sun", "Clear", "clear"], "Sunny")]

/-- The nested `for` loops of `parse_weather_condition`: walk the groups in
order; on the first group one of whose keywords occurs in the text, return
that group's category; if the loop finishes, fall through to the `else`
branch returning the raw text. -/
def condLoop : List (List String × String) → String → String
  | [], text => text
  | g :: rest, text =>
    if g.1.any (fun k => strOccurs k text) then g.2 else condLoop rest text

/-- `WeatherMaker.parse_weather_condition`, applied to the summary text. -/
def parse_weather_condition (text : String) : String :=
  condLoop WEATHER_CONDITION_DICT text

/-- `WeatherMaker.parse_temperature`, applied to the extracted text:
`temperature[:-1] + 'deg C'`. -/
def parse_temperature (s : String) : String :=
  s.dropRight 1 ++ "deg C"

/-- The markup fields of one fetched page that the extractors read. -/
structure Page where
  tempText : String
  condText : String
  windForce : String
  windUnit : String
  windDir : String
deriving DecidableEq

/-- `WeatherMaker.parse_wind`: `f'{wind_force.text} {wind_units.text}    {wind_direction}'`. -/
def parse_wind (p : Page) : String :=
  p.windForce ++ " " ++ p.windUnit ++ "    " ++ p.windDir

/-- A row of the `Forecast` table from `database_init.py`, which is also the
shape of the per-day dict built by `save_forecast` (keys `Date`,
`Temperature`, `Weather condition`, `Wind`). -/
structure ForecastRow where
  date : Int
  temperature : String
  condition : String
  wind : String
deriving DecidableEq

/-- The record `save_forecast` builds for one day from the fetched page. -/
def make_record (fetch : Int → Page) (d : Int) : ForecastRow :=
  ⟨d, parse_temperature (fetch d).tempText,
      parse_weather_condition (fetch d).condText,
      parse_wind (fetch d)⟩

/-- The `while current_date <= self.end_date` loop of
`WeatherMaker.save_forecast`.  Returns the list of dates for which
`requests.get` executed (one per loop iteration) paired with the
date-keyed mapping built up; the loop body performs exactly one fetch
and adds exactly one mapping entry. -/
def save_loop (fetch : Int → Page) (endD current : Int) :
    List Int × List (Int × ForecastRow) :=
  if current ≤ endD then
    let rest := save_loop fetch endD (current + 1)
    (current :: rest.1, (current, make_record fetch current) :: rest.2)
  else ([], [])
termination_by (endD + 1 - current).toNat
decreasing_by omega

/-- `WeatherMaker.save_forecast` for the range `[startD, endD]`. -/
def save_forecast (fetch : Int → Page) (startD endD : Int) :
    List Int × List (Int × ForecastRow) :=
  save_loop fetch endD startD

/-- peewee `Model.get_or_create(date=d, defaults={...})`: return the
unchanged table and `false` when a row with that date exists, otherwise
append a fresh row built from the defaults and return `true`. -/
def get_or_create (db : List ForecastRow) (d : Int) (t c w : String) :
    List ForecastRow × Bool :=
  if db.any (fun r => r.date == d) then (db, false)
  else (db ++ [⟨d, t, c, w⟩], true)

/-- The `update({...}).where(date == d)` query of `store_forecast`:
overwrite the three value fields of every row whose date matches. -/
def updateWhere (db : List ForecastRow) (d : Int) (t c w : String) :
    List ForecastRow :=
  db.map (fun r => if r.date == d then ⟨r.date, t, c, w⟩ else r)

/-- The body of the `for record in forecast.values()` loop of
`DatabaseUpdater.store_forecast`: `get_or_create`, then — only `if
created:` — the field update. -/
def store_forecast_step (db : List ForecastRow) (rec : ForecastRow) :
    List ForecastRow :=
  let gc := get_or_create db rec.date rec.temperature rec.condition rec.wind
  if gc.2 then updateWhere gc.1 rec.date rec.temperature rec.condition rec.wind
  else gc.1

/-- `DatabaseUpdater.store_forecast` over the collected records. -/
def store_forecast (db : List ForecastRow) (records : List ForecastRow) :
    List ForecastRow :=
  records.foldl store_forecast_step db

/-- Ascending-date order used by the `order_by(date)` clause. -/
def rowLe (a b : ForecastRow) : Prop := a.date ≤ b.date

instance : DecidableRel rowLe :=
  fun a b => inferInstanceAs (Decidable (a.date ≤ b.date))

instance : IsTotal ForecastRow rowLe := ⟨fun a b => Int.le_total a.date b.date⟩

instance : IsTrans ForecastRow rowLe := ⟨fun _ _ _ h1 h2 => le_trans h1 h2⟩

/-- `DatabaseUpdater.get_forecast`: `select().where(date.between(lo, hi))
.order_by(date)`.  SQL `BETWEEN` is inclusive on both ends; the sort is
modelled by insertion sort on dates. -/
def get_forecast (db : List ForecastRow) (lo hi : Int) : List ForecastRow :=
  List.insertionSort rowLe
    (db.filter (fun r => decide (lo ≤ r.date) && decide (r.date ≤ hi)))

/-- Spec-side normalizer, following the words of the spec: scan the ordered
keyword-group table and return the first category one of whose keywords
appears as a substring of the raw text; if none matches, return the raw
text unchanged. -/
def normalizer_spec (text : String) : String :=
  match WEATHER_CONDITION_DICT.find? (fun p => p.1.any (fun k => strOccurs k text)) with
  | some p => p.2
  | none => text

/-! ### Normalizer lemmas -/

lemma condLoop_eq_find (l : List (List String × String)) (t : String) :
    condLoop l t =
      match l.find? (fun p => p.1.any (fun k => strOccurs k t)) with
      | some p => p.2
      | none => t := by
  induction l with
  | nil => rfl
  | cons g rest ih =>
    by_cases h : g.1.any (fun k => strOccurs k t)
    · simp [condLoop, h]
    · have hb : (g.1.any fun k => strOccurs k t) = false := by simpa using h
      simp only [condLoop]
      rw [if_neg h, ih]
      have hf : List.find? (fun p => p.1.any fun k => strOccurs k t) (g :: rest)
          = List.find? (fun p => p.1.any fun k => strOccurs k t) rest := by
        simp [List.find?_cons, hb]
      rw [hf]

lemma condLoop_no_match {t : String} : ∀ {l : List (List String × String)},
    (∀ g ∈ l, ∀ k ∈ g.1, strOccurs k t = false) → condLoop l t = t := by
  intro l
  induction l with
  | nil => intro _; rfl
  | cons g rest ih =>
    intro h
    have hg : g.1.any (fun k => strOccurs k t) = false := by
      simp only [List.any_eq_false]
      intro k hk
      simp [h g (List.mem_cons_self g rest) k hk]
    simp only [condLoop, hg, Bool.false_eq_true, if_false]
    exact ih (fun q hq => h q (List.mem_cons_of_mem g hq))

lemma condLoop_unique {t : String} :
    ∀ {l : List (List String × String)} {p : List String × String}, p ∈ l →
      (∃ k ∈ p.1, strOccurs k t = true) →
      (∀ q ∈ l, (∃ k ∈ q.1, strOccurs k t = true) → q = p) →
      condLoop l t = p.2 := by
  intro l
  induction l with
  | nil => intro p hp; exact absurd hp (List.not_mem_nil p)
  | cons g rest ih =>
    intro p hp hmatch huniq
    by_cases hg : g.1.any (fun k => strOccurs k t)
    · have hgm : ∃ k ∈ g.1, strOccurs k t = true := by
        simpa using hg
      have hgp : g = p := huniq g (List.mem_cons_self g rest) hgm
      simp only [condLoop]
      rw [if_pos hg, hgp]
    · have hpg : p ≠ g := by
        intro hpe
        apply hg
        rw [← hpe]
        simpa using hmatch
      have hpr : p ∈ rest := by
        rcases List.mem_cons.mp hp with h1 | h1
        · exact absurd h1 hpg
        · exact h1
      simp only [condLoop, hg, Bool.false_eq_true, if_false]
      exact ih hpr hmatch (fun q hq => huniq q (List.mem_cons_of_mem g hq))

/-- C2: the normalizer scans the keyword-group table in declaration order and
returns the category of the first group with a keyword occurring as a
substring of the text; a text matching exactly one group gets that group's
category, and a text matching no group is returned unchanged. -/
theorem claim_C2_normalizer (t : String) :
    parse_weather_condition t = normalizer_spec t
    ∧ ((∀ g ∈ WEATHER_CONDITION_DICT, ∀ k ∈ g.1, strOccurs k t = false) →
        parse_weather_condition t = t)
    ∧ (∀ p ∈ WEATHER_CONDITION_DICT,
        (∃ k ∈ p.1, strOccurs k t = true) →
        (∀ q ∈ WEATHER_CONDITION_DICT, (∃ k ∈ q.1, strOccurs k t = true) → q = p) →
        parse_weather_condition t = p.2) := by
  refine ⟨?_, ?_, ?_⟩
  · rw [parse_weather_condition, normalizer_spec, condLoop_eq_find]
  · intro h
    exact condLoop_no_match h
  · intro p hp hm hu
    exact condLoop_unique hp hm hu

/-- Witness for C2 at concrete texts: a text with no keyword is returned
unchanged, and a text matching only the Rainy group maps to Rainy. -/
theorem claim_C2_normalizer_witness :
    parse_weather_condition "hailstorm" = "hailstorm"
    ∧ parse_weather_condition "light rain shower" = "Rainy" := by
  constructor
  · exact (claim_C2_normalizer "hailstorm").2.1 (by decide)
  · exact (claim_C2_normalizer "light rain shower").2.2
      (["Rain", "rain", "Drizzle", "drizzle"], "Rainy") (by decide) (by decide)
      (by decide)

/-- C10: keyword matching is case-sensitive exact substring matching: a text
containing no listed keyword (in particular one whose category word occurs
only in an unlisted casing) is returned unchanged. -/
theorem claim_C10_case_sensitive (t : String)
    (h : ∀ g ∈ WEATHER_CONDITION_DICT, ∀ k ∈ g.1, strOccurs k t = false) :
    parse_weather_condition t = t :=
  condLoop_no_match h

/-- Witness for C10: the all-uppercase text CLOUDY contains no listed keyword
(the listed casings are only e.g. Cloud and cloud) and is returned raw. -/
theorem claim_C10_case_sensitive_witness :
    (∀ g ∈ WEATHER_CONDITION_DICT, ∀ k ∈ g.1, strOccurs k "CLOUDY" = false)
    ∧ parse_weather_condition "CLOUDY" = "CLOUDY" :=
  ⟨by decide, claim_C10_case_sensitive "CLOUDY" (by decide)⟩

/-! ### Store lemmas -/

lemma store_step_of_any (db : List ForecastRow) (r : ForecastRow)
    (h : db.any (fun x => x.date == r.date) = true) :
    store_forecast_step db r = db := by
  simp [store_forecast_step, get_or_create, h]

/-- C1 fails on the code: when a row with the record's date already exists,
`store_forecast` leaves the stored fields untouched (the update query runs
only on the `created` branch); the insert half of the claim does hold. -/
theorem claim_C1_upsert_bug :
    store_forecast_step [⟨18779, "1.0deg C", "Sunny", "5 km/h    N"⟩]
        ⟨18779, "15.0deg C", "Cloudy", "10 km/h    NW"⟩
      = [⟨18779, "1.0deg C", "Sunny", "5 km/h    N"⟩]
    ∧ store_forecast_step [] ⟨18779, "15.0deg C", "Cloudy", "10 km/h    NW"⟩
      = [⟨18779, "15.0deg C", "Cloudy", "10 km/h    NW"⟩] := by
  decide

/-- C4: when storage already holds a row with the record's date,
`store_forecast` returns storage unchanged; in general the field-update
write happens only on the branch where `get_or_create` created a new row. -/
theorem claim_C4_no_overwrite (db : List ForecastRow) (r : ForecastRow) :
    ((∃ r0 ∈ db, r0.date = r.date) → store_forecast_step db r = db)
    ∧ store_forecast_step db r =
        (if db.any (fun x => x.date == r.date) then db
         else updateWhere (db ++ [⟨r.date, r.temperature, r.condition, r.wind⟩])
                r.date r.temperature r.condition r.wind) := by
  constructor
  · intro h
    apply store_step_of_any
    rcases h with ⟨r0, hr0, hd⟩
    simp only [List.any_eq_true]
    exact ⟨r0, hr0, by simp [hd]⟩
  · by_cases h : db.any (fun x => x.date == r.date)
    · rw [if_pos h, store_step_of_any db r h]
    · rw [if_neg h]
      simp only [store_forecast_step, get_or_create, Bool.not_eq_true] at h ⊢
      rw [h]
      simp

/-- Witness for C4: a duplicate-date record leaves the stored row as it was. -/
theorem claim_C4_no_overwrite_witness :
    store_forecast_step [⟨7, "a", "b", "c"⟩] ⟨7, "x", "y", "z"⟩
      = [⟨7, "a", "b", "c"⟩] :=
  (claim_C4_no_overwrite [⟨7, "a", "b", "c"⟩] ⟨7, "x", "y", "z"⟩).1
    ⟨⟨7, "a", "b", "c"⟩, by decide, rfl⟩

/-- C5 fails on the code: upserting a record over an existing row with the
same date and then querying that date returns the old row, not the new
record. -/
theorem claim_C5_roundtrip_bug :
    get_forecast
        (store_forecast_step [⟨18800, "3.0deg C", "Sunny", "4 km/h    E"⟩]
          ⟨18800, "9.0deg C", "Rainy", "7 km/h    S"⟩) 18800 18800
      = [⟨18800, "3.0deg C", "Sunny", "4 km/h    E"⟩]
    ∧ (⟨18800, "3.0deg C", "Sunny", "4 km/h    E"⟩ : ForecastRow)
      ≠ ⟨18800, "9.0deg C", "Rainy", "7 km/h    S"⟩ := by
  decide

/-- C6 fails on the code: upserting the same record twice over a
pre-existing row with that date leaves exactly one row for the date
(uniqueness holds) but with the stale field values, not the latest ones. -/
theorem claim_C6_idempotence_bug :
    store_forecast_step
        (store_forecast_step [⟨18810, "1.0deg C", "Snowy", "2 km/h    W"⟩]
          ⟨18810, "8.0deg C", "Cloudy", "6 km/h    N"⟩)
        ⟨18810, "8.0deg C", "Cloudy", "6 km/h    N"⟩
      = [⟨18810, "1.0deg C", "Snowy", "2 km/h    W"⟩]
    ∧ ((store_forecast_step
        (store_forecast_step [⟨18810, "1.0deg C", "Snowy", "2 km/h    W"⟩]
          ⟨18810, "8.0deg C", "Cloudy", "6 km/h    N"⟩)
        ⟨18810, "8.0deg C", "Cloudy", "6 km/h    N"⟩).filter
          (fun r => r.date == 18810)).length = 1
    ∧ ("1.0deg C" : String) ≠ "8.0deg C" := by
  decide

/-! ### Query and collector claims -/

/-- C7: the query returns a permutation of the stored rows whose date lies
in the inclusive range, sorted ascending by date, and an inverted range on
any storage yields the empty sequence rather than an error. -/
theorem claim_C7_query (db : List ForecastRow) (lo hi : Int) :
    (get_forecast db lo hi).Perm
        (db.filter (fun r => decide (lo ≤ r.date) && decide (r.date ≤ hi)))
    ∧ List.Sorted rowLe (get_forecast db lo hi)
    ∧ (hi < lo → get_forecast db lo hi = []) := by
  refine ⟨List.perm_insertionSort rowLe _, List.sorted_insertionSort rowLe _, ?_⟩
  intro h
  unfold get_forecast
  have hnil : db.filter (fun r => decide (lo ≤ r.date) && decide (r.date ≤ hi))
      = [] := by
    rw [List.filter_eq_nil_iff]
    intro a _
    simp only [Bool.and_eq_true, decide_eq_true_eq, not_and]
    intro h1 h2
    omega
  rw [hnil]
  rfl

/-- Witness for C7: an inverted range on populated storage returns the
empty sequence. -/
theorem claim_C7_query_witness :
    get_forecast [⟨18798, "t1", "Sunny", "w1"⟩, ⟨18797, "t2", "Rainy", "w2"⟩]
        18798 18797 = [] :=
  (claim_C7_query [⟨18798, "t1", "Sunny", "w1"⟩, ⟨18797, "t2", "Rainy", "w2"⟩]
    18798 18797).2.2 (by decide)

/-- C3 fails as stated: the source has no `InvalidRangeError` at all; for
start after end `save_forecast` runs its loop zero times and returns
normally, here with an empty fetch list and an empty mapping. -/
theorem claim_C3_counterexample :
    save_forecast (fun _ => (⟨"", "", "", "", ""⟩ : Page)) 1 0 = ([], []) := by
  unfold save_forecast
  rw [save_loop]
  rw [if_neg (by omega)]

/-- C3 amended: for every range with start after end the collector performs
no fetch and returns an empty mapping, raising no error. -/
theorem claim_C3_amended (fetch : Int → Page) (s e : Int) (h : e < s) :
    save_forecast fetch s e = ([], []) := by
  unfold save_forecast
  rw [save_loop]
  rw [if_neg (by omega)]

/-- Witness for the amended C3 at a concrete inverted range. -/
theorem claim_C3_amended_witness :
    save_forecast (fun _ => (⟨"7°", "clear", "3", "km/h", "W"⟩ : Page)) 5 4
      = ([], []) :=
  claim_C3_amended (fun _ => (⟨"7°", "clear", "3", "km/h", "W"⟩ : Page)) 5 4
    (by decide)

/-- C8: for start = end the collector performs exactly one fetch (at that
date) and returns a mapping with exactly one entry, keyed by that date. -/
theorem claim_C8_single_day (fetch : Int → Page) (d : Int) :
    save_forecast fetch d d = ([d], [(d, make_record fetch d)]) := by
  unfold save_forecast
  have h2 : save_loop fetch d (d + 1) = ([], []) := by
    rw [save_loop]
    rw [if_neg (by omega)]
  rw [save_loop, if_pos (le_refl d), h2]

/-! ### Field-formatting claims -/

/-- C9 fails as stated for the temperature field: the code drops the final
character of the extracted text before appending the unit label, so the
extracted text 15.0 is stored as 15.deg C, not 15.0deg C. -/
theorem claim_C9_counterexample :
    parse_temperature "15.0" ≠ "15.0deg C" := by decide

/-- C9 amended: an extracted temperature text carrying its trailing degree
symbol, 15.0°, is stored as 15.0deg C; the condition text Partly cloudy
skies is stored as Cloudy; and wind force 10, unit km/h, direction NW are
stored as 10 km/h    NW (force, space, unit, four spaces, direction). -/
theorem claim_C9_amended :
    parse_temperature "15.0°" = "15.0deg C"
    ∧ parse_weather_condition "Partly cloudy skies" = "Cloudy"
    ∧ parse_wind ⟨"15.0°", "Partly cloudy skies", "10", "km/h", "NW"⟩
      = "10 km/h    NW" := by
  decide
